import Mathlib

set_option maxRecDepth 100000

/-!
Verification of the public-inbox → GitHub mirroring helper
(`PublicInboxGitHelper` in the repository's TypeScript source).

The development shallowly embeds the helper's code: the SHA-1 based
`hashKey` content hasher, the reference-merging logic of `mboxHandler`,
the diff-to-message line state machine of `lineHandler`, and the scan
orchestration of `processMails`.  External collaborators (git, the
notes-based KV store, the GitHub glue, the MIME parser) are modelled as
oracle functions collected in an `Env` record, and every externally
visible call is recorded in an explicit `Effect` trace so that frame
properties ("no delivery happened", "the cursor was persisted") can be
stated and proved.
-/

/-! ### SHA-1 (FIPS 180), executable, over byte lists -/

/-- 2^32, the word modulus of SHA-1. -/
def M32 : Nat := 4294967296

/-- Left-rotation of a 32-bit word. -/
def rotl (n x : Nat) : Nat := (((x <<< n) % M32) ||| (x >>> (32 - n)))

/-- The SHA-1 chaining state: five 32-bit words. -/
structure SHA1State where
  h0 : Nat
  h1 : Nat
  h2 : Nat
  h3 : Nat
  h4 : Nat
deriving DecidableEq, Repr

/-- Initial SHA-1 chaining values. -/
def sha1Init : SHA1State :=
  ⟨0x67452301, 0xEFCDAB89, 0x98BADCFE, 0x10325476, 0xC3D2E1F0⟩

/-- The SHA-1 round function, selected by round index. -/
def sha1F (i b c d : Nat) : Nat :=
  if i < 20 then (b &&& c) ||| ((b ^^^ 0xFFFFFFFF) &&& d)
  else if i < 40 then b ^^^ c ^^^ d
  else if i < 60 then (b &&& c) ||| (b &&& d) ||| (c &&& d)
  else b ^^^ c ^^^ d

/-- The SHA-1 round constant, selected by round index. -/
def sha1K (i : Nat) : Nat :=
  if i < 20 then 0x5A827999
  else if i < 40 then 0x6ED9EBA1
  else if i < 60 then 0x8F1BBCDC
  else 0xCA62C1D6

/-- Big-endian 32-bit words from a byte list (4 bytes per word). -/
def bytesToWords : List Nat → List Nat
  | b0 :: b1 :: b2 :: b3 :: rest =>
      (((b0 * 256 + b1) * 256 + b2) * 256 + b3) :: bytesToWords rest
  | _ => []

/-- Message-schedule extension: append `fuel` additional schedule words. -/
def sha1Extend : Nat → List Nat → List Nat
  | 0, w => w
  | n + 1, w =>
      let L := w.length
      let x := rotl 1 ((w.getD (L - 3) 0) ^^^ (w.getD (L - 8) 0) ^^^
                       (w.getD (L - 14) 0) ^^^ (w.getD (L - 16) 0))
      sha1Extend n (w ++ [x])

/-- Run the 80 SHA-1 rounds over the indexed schedule. -/
def sha1Rounds : List (Nat × Nat) → Nat × Nat × Nat × Nat × Nat →
    Nat × Nat × Nat × Nat × Nat
  | [], s => s
  | (i, wi) :: rest, (a, b, c, d, e) =>
      let t := (rotl 5 a + sha1F i b c d + e + sha1K i + wi) % M32
      sha1Rounds rest (t, a, rotl 30 b, c, d)

/-- Compress one 64-byte block into the chaining state. -/
def sha1Compress (s : SHA1State) (block : List Nat) : SHA1State :=
  let w := sha1Extend 64 (bytesToWords block)
  let (a, b, c, d, e) := sha1Rounds w.enum (s.h0, s.h1, s.h2, s.h3, s.h4)
  ⟨(s.h0 + a) % M32, (s.h1 + b) % M32, (s.h2 + c) % M32,
   (s.h3 + d) % M32, (s.h4 + e) % M32⟩

/-- Big-endian byte expansion of `n` into `k` bytes. -/
def bigEndianBytes : Nat → Nat → List Nat
  | 0, _ => []
  | k + 1, n => bigEndianBytes k (n / 256) ++ [n % 256]

/-- SHA-1 padding: a 0x80 byte, zeros to 56 mod 64, and the bit length. -/
def sha1Pad (msg : List Nat) : List Nat :=
  let z := (119 - (msg.length % 64)) % 64
  msg ++ [128] ++ List.replicate z 0 ++ bigEndianBytes 8 (msg.length * 8)

/-- Fold the compression function over `fuel` consecutive 64-byte blocks. -/
def sha1BlocksGo : Nat → SHA1State → List Nat → SHA1State
  | 0, s, _ => s
  | n + 1, s, bytes => sha1BlocksGo n (sha1Compress s (bytes.take 64)) (bytes.drop 64)

/-- SHA-1 of a byte list, as the final chaining state. -/
def sha1Bytes (msg : List Nat) : SHA1State :=
  let padded := sha1Pad msg
  sha1BlocksGo (padded.length / 64) sha1Init padded

/-- Lower-case hexadecimal digit. -/
def hexDigit (n : Nat) : Char :=
  if n < 10 then Char.ofNat (48 + n) else Char.ofNat (87 + n)

/-- Eight hex digits of a 32-bit word, most significant first. -/
def hex8 (n : Nat) : List Char :=
  [hexDigit ((n >>> 28) % 16), hexDigit ((n >>> 24) % 16),
   hexDigit ((n >>> 20) % 16), hexDigit ((n >>> 16) % 16),
   hexDigit ((n >>> 12) % 16), hexDigit ((n >>> 8) % 16),
   hexDigit ((n >>> 4) % 16), hexDigit (n % 16)]

/-- SHA-1 of a byte list as a 40-character lower-case hex string. -/
def sha1Hex (msg : List Nat) : String :=
  let s := sha1Bytes msg
  String.mk (hex8 s.h0 ++ hex8 s.h1 ++ hex8 s.h2 ++ hex8 s.h3 ++ hex8 s.h4)

/-! ### UTF-8 encoding of strings, as byte lists -/

/-- UTF-8 encoding of a single unicode scalar value. -/
def utf8Char (c : Char) : List Nat :=
  let n := c.toNat
  if n < 0x80 then [n]
  else if n < 0x800 then
    [0xC0 ||| (n >>> 6), 0x80 ||| (n &&& 0x3F)]
  else if n < 0x10000 then
    [0xE0 ||| (n >>> 12), 0x80 ||| ((n >>> 6) &&& 0x3F), 0x80 ||| (n &&& 0x3F)]
  else
    [0xF0 ||| (n >>> 18), 0x80 ||| ((n >>> 12) &&& 0x3F),
     0x80 ||| ((n >>> 6) &&& 0x3F), 0x80 ||| (n &&& 0x3F)]

/-- UTF-8 encoding of a character list. -/
def utf8Chars : List Char → List Nat
  | [] => []
  | c :: cs => utf8Char c ++ utf8Chars cs

/-- UTF-8 encoding of a string. -/
def utf8 (s : String) : List Nat := utf8Chars s.data

/-- Models `Buffer.byteLength(key)` (default utf8 encoding). -/
def byteLength (s : String) : Nat := (utf8 s).length

/-- Embeds `PublicInboxGitHelper.hashKey`.  The source feeds the hash
object two chunks, `"blob " + (Buffer.byteLength(key) + 1)` and
`"\0" + key + "\n"`, both utf8-encoded; the streaming digest equals the
SHA-1 of the concatenation of the chunks. -/
def hashKey (key : String) : String :=
  sha1Hex (utf8 ("blob " ++ toString (byteLength key + 1)) ++
           utf8 ("\x00" ++ key ++ "\n"))

/-! ### String helpers modelling the JavaScript string operations used -/

/-- Models `s.startsWith(p)` of JavaScript. -/
def strStartsWith (s p : String) : Bool :=
  s.data.take p.data.length == p.data

/-- Models `s.endsWith(p)` of JavaScript. -/
def strEndsWith (s p : String) : Bool :=
  s.data.reverse.take p.data.length == p.data.reverse

/-- Models `s.substr(n)` of JavaScript: the characters from index `n` on. -/
def substrFrom (s : String) (n : Nat) : String :=
  String.mk (s.data.drop n)

/-- Models `line.substr(53).replace(/\//g, "")`: drop the fixed-width
`ls-tree` prefix (mode, type, object name, tab — 53 characters) and
remove every fan-out slash from the remaining path. -/
def lsTreeKey (line : String) : String :=
  String.mk ((line.data.drop 53).filter fun c => c ≠ '/')

/-- JavaScript truthiness of an optional string: `undefined` and the
empty string are falsy. -/
def truthyS : Option String → Bool
  | none => false
  | some s => !s.isEmpty

/-- JavaScript truthiness of an optional number: `undefined` and `0`
are falsy. -/
def truthyN : Option Nat → Bool
  | none => false
  | some n => n != 0

/-- Models `from.replace(/ *<.*>/, "")`: delete the leftmost run of
spaces followed by a `<`, greedily through the last `>` of the string.
If the string has no `<` before its last `>`, it is unchanged. -/
def stripAddress (s : String) : String :=
  let cs := s.data
  match cs.findIdx? (fun c => c = '<') with
  | none => s
  | some i =>
    match cs.reverse.findIdx? (fun c => c = '>') with
    | none => s
    | some k =>
      let j := cs.length - 1 - k
      if i < j then
        let start := i - ((cs.take i).reverse.takeWhile (fun c => c = ' ')).length
        String.mk (cs.take start ++ cs.drop (j + 1))
      else s

/-! ### Data model -/

/-- The fields of `IMailMetadata` used by the helper (`messageID`,
`pullRequestURL?`, `originalCommit?`, `issueCommentId?`). -/
structure IMailMetadata where
  messageID : String
  pullRequestURL : Option String
  originalCommit : Option String
  issueCommentId : Option Nat
deriving DecidableEq, Repr

/-- Embeds `IGitMailingListMirrorState`. -/
structure IGitMailingListMirrorState where
  latestRevision : Option String
deriving DecidableEq, Repr

/-- One parsed mbox header (`{key, value}`). -/
structure MboxHeader where
  key : String
  value : String
deriving DecidableEq, Repr

/-- The fields of `IParsedMBox` used by the helper.  The source field
named `from` is called `from_` here (`from` is reserved in Lean). -/
structure IParsedMBox where
  body : String
  from_ : Option String
  headers : List MboxHeader
deriving DecidableEq, Repr

/-- The running merge of candidate records inside `mboxHandler`: the
three local variables `pullRequestURL`, `originalCommit`,
`issueCommentId`. -/
structure MergeState where
  pullRequestURL : Option String
  originalCommit : Option String
  issueCommentId : Option Nat
deriving DecidableEq, Repr

/-- The empty merge state (all three variables `undefined`). -/
def initMerge : MergeState := ⟨none, none, none⟩

/-- Externally visible calls made during a scan, in order.  `lsTree` is
the known-keys listing of the notes tree, `archiveHead` the
`revParse("master")` on the public-inbox clone, `archiveLog` the
`git log -p --reverse` over a range, `kvRead`/`kvWrite` the per-message
notes accesses, `stateWrite` the persisting of the mirror state (with
the new cursor), the three `host*` constructors the GitHub-glue calls,
and `mimeParse` the handing of one reconstructed message to the MIME
collaborator. -/
inductive Effect where
  | lsTree : Effect
  | archiveHead : Effect
  | archiveLog : String → Effect
  | kvRead : String → Effect
  | kvWrite : String → IMailMetadata → Effect
  | stateWrite : String → Effect
  | hostReply : String → Nat → Effect
  | hostCommitComment : String → String → Effect
  | hostComment : String → Effect
  | mimeParse : String → Effect
deriving DecidableEq, Repr

/-- Is the effect a code-hosting (GitHub glue) call? -/
def Effect.isHost : Effect → Bool
  | .hostReply _ _ => true
  | .hostCommitComment _ _ => true
  | .hostComment _ => true
  | _ => false

/-- Is the effect a KV (notes) read? -/
def Effect.isKvRead : Effect → Bool
  | .kvRead _ => true
  | _ => false

/-- Is the effect a KV (notes) record write? -/
def Effect.isKvWrite : Effect → Bool
  | .kvWrite _ _ => true
  | _ => false

/-- Is the effect a mirror-state (cursor) write? -/
def Effect.isStateWrite : Effect → Bool
  | .stateWrite _ => true
  | _ => false

/-- Is the effect the emission of a reconstructed message for parsing? -/
def Effect.isMimeParse : Effect → Bool
  | .mimeParse _ => true
  | _ => false

/-- The collaborators of the helper (spec §6), modelled as oracles:
git on the two repositories, the notes KV store, the GitHub glue, the
MIME parser, and the runtime decoders used by `mbox2markdown`.  A
`.error` result models a rejected promise. -/
structure Env where
  lsTree : Except String (List String)
  revParse : Except String String
  logLines : Except String (List String)
  notesGet : String → Except String (Option IMailMetadata)
  notesSet : String → IMailMetadata → Except String Unit
  setState : IGitMailingListMirrorState → Except String Unit
  parseMBox : String → Except String IParsedMBox
  parseMIDRefs : String → Except String (String × List String)
  addPRCommentReply : String → Nat → String → Except String Nat
  addPRCommitComment : String → String → String → String → Except String Nat
  addPRComment : String → String → Except String Nat
  decodeBase64 : String → String
  decodeQuotedPrintable : String → String
  prFilter : Option (String → Bool)
  workDir : String

/-! ### Constants of the source -/

/-- The reserved key the mirror state is stored under. -/
def stateKey : String := "git@vger.kernel.org <-> GitGitGadget"

/-- The fixed "reply to this" wiki link. -/
def replyToThisURL : String :=
  "https://github.com/gitgitgadget/gitgitgadget/wiki/ReplyToThis"

/-- The fixed commit in public-inbox/git just before the first
GitGitGadget mail, used when no state was stored yet. -/
def initialRevision : String := "cf3590b3a1ce08a52b01142307b8fcc089acb6a6"

/-! ### mbox rendering (`mbox2markdown` and the attribution header) -/

/-- Embeds `PublicInboxGitHelper.mbox2markdown`.  The base64 and
quoted-printable decoders are runtime collaborators supplied by `Env`. -/
def mbox2markdown (env : Env) (mbox : IParsedMBox) : String :=
  let body := mbox.headers.foldl
    (fun body header =>
      if header.key == "Content-Transfer-Encoding" then
        let value := header.value.toLower
        if value == "base64" then env.decodeBase64 body
        else if value == "quoted-printable" then env.decodeQuotedPrintable body
        else body
      else body)
    mbox.body
  if body.isEmpty then ""
  else
    "``````````\n" ++ body ++ (if strEndsWith body "\n" then "" else "\n") ++
    "``````````\n"

/-- The attribution line built in `mboxHandler` before the rendered
body. -/
def commentHeader (messageID : String) (parsed : IParsedMBox) : String :=
  let pigURL := "https://public-inbox.org/git/" ++ messageID
  "[On the Git mailing list](" ++ pigURL ++ "), " ++
  (match parsed.from_ with
   | some f => if f.isEmpty then "Somebody" else stripAddress f
   | none => "Somebody") ++
  " wrote ([reply to this](" ++ replyToThisURL ++ ")):\n\n"

/-! ### The known-keys set and the candidate merge of `mboxHandler` -/

/-- Embeds the `seen` closure: membership of `hashKey messageID` in the
known-keys set. -/
def seen (keys : List String) (messageID : String) : Bool :=
  keys.contains (hashKey messageID)

/-- One iteration of the candidate loop of `mboxHandler` (lines
177–195 of the source): a candidate with a truthy `pullRequestURL`
that passes the filter is adopted — overwriting all three variables —
when the current best lacks a URL, lacks an `originalCommit` while the
candidate supplies one, or lacks an `issueCommentId` while the
candidate has one.  A reference whose message-id starts with `pull`
was a cover letter, recorded with its tip commit, so its
`originalCommit` is ignored. -/
def mergeStep (env : Env) (reference : String) (data : Option IMailMetadata)
    (st : MergeState) : MergeState :=
  match data with
  | none => st
  | some d =>
    match d.pullRequestURL with
    | none => st
    | some pr =>
      if pr.isEmpty then st
      else if (match env.prFilter with
               | none => false
               | some f => !f pr) then st
      else
        let commit := if strStartsWith reference "pull" then none
                      else d.originalCommit
        if !truthyS st.pullRequestURL ||
           (!truthyS st.originalCommit && truthyS commit) ||
           (!truthyN st.issueCommentId && truthyN d.issueCommentId) then
          ⟨some pr, commit, d.issueCommentId⟩
        else st

/-- The candidate loop of `mboxHandler`: fetch each (already seen)
reference's record from the notes store and fold `mergeStep`.  A failed
notes read rejects the whole handler. -/
def mergeLoop (env : Env) : List String → MergeState →
    Except String MergeState × List Effect
  | [], st => (.ok st, [])
  | reference :: rest, st =>
    match env.notesGet reference with
    | .error e => (.error e, [.kvRead reference])
    | .ok data =>
      ((mergeLoop env rest (mergeStep env reference data st)).1,
       .kvRead reference :: (mergeLoop env rest (mergeStep env reference data st)).2)

/-- The record write and key insertion at the end of `mboxHandler`. -/
def recordAndAdd (env : Env) (keys : List String) (messageID : String)
    (st : MergeState) (pullRequestURL : String) (icId : Option Nat)
    (effs : List Effect) : Except String Unit × List String × List Effect :=
  match env.notesSet messageID ⟨messageID, some pullRequestURL,
                                st.originalCommit, icId⟩ with
  | .error e => (.error e, keys, effs)
  | .ok _ => (.ok (), keys ++ [hashKey messageID],
              effs ++ [.kvWrite messageID
                        ⟨messageID, some pullRequestURL,
                         st.originalCommit, icId⟩])

/-- The delivery branch of `mboxHandler` (lines 213–241): reply to the
known comment if any, else comment on the known commit, else post a
plain PR comment whose id is deliberately not used; then write the
record and mark the message-id known. -/
def deliverAndRecord (env : Env) (keys : List String) (messageID : String)
    (st : MergeState) (pullRequestURL comment : String) (effs : List Effect) :
    Except String Unit × List String × List Effect :=
  if truthyN st.issueCommentId then
    match env.addPRCommentReply pullRequestURL (st.issueCommentId.getD 0)
        comment with
    | .error e => (.error e, keys,
                   effs ++ [.hostReply pullRequestURL (st.issueCommentId.getD 0)])
    | .ok rid => recordAndAdd env keys messageID st pullRequestURL (some rid)
                   (effs ++ [.hostReply pullRequestURL (st.issueCommentId.getD 0)])
  else if truthyS st.originalCommit then
    match env.addPRCommitComment pullRequestURL (st.originalCommit.getD "")
        env.workDir comment with
    | .error e => (.error e, keys,
                   effs ++ [.hostCommitComment pullRequestURL
                             (st.originalCommit.getD "")])
    | .ok rid => recordAndAdd env keys messageID st pullRequestURL (some rid)
                   (effs ++ [.hostCommitComment pullRequestURL
                              (st.originalCommit.getD "")])
  else
    match env.addPRComment pullRequestURL comment with
    | .error e => (.error e, keys, effs ++ [.hostComment pullRequestURL])
    | .ok _ => recordAndAdd env keys messageID st pullRequestURL
                 st.issueCommentId (effs ++ [.hostComment pullRequestURL])

/-- Embeds `mboxHandler`.  Returns the promise outcome, the updated
known-keys set, and the trace of external calls made on behalf of this
message. -/
def mboxHandler (env : Env) (keys : List String) (messageID : String)
    (references : List String) (mbox : String) :
    Except String Unit × List String × List Effect :=
  if seen keys messageID then (.ok (), keys, [])
  else
    match mergeLoop env (references.filter (seen keys)) initMerge with
    | (.error e, effs) => (.error e, keys, effs)
    | (.ok st, effs) =>
      match st.pullRequestURL with
      | none => (.ok (), keys, effs)
      | some pullRequestURL =>
        if pullRequestURL.isEmpty then (.ok (), keys, effs)
        else
          match env.parseMBox mbox with
          | .error e => (.error e, keys, effs)
          | .ok parsed =>
            deliverAndRecord env keys messageID st pullRequestURL
              (commentHeader messageID parsed ++ mbox2markdown env parsed) effs

/-! ### The diff-to-message line state machine (`lineHandler`) -/

/-- Greedy decimal parse: `parseDigitsGo cs acc sawDigit` consumes
leading digits of `cs` and returns the accumulated value and the rest,
or `none` when no digit was consumed at all. -/
def parseDigitsGo : List Char → Nat → Bool → Option (Nat × List Char)
  | [], acc, sawDigit => if sawDigit then some (acc, []) else none
  | c :: cs, acc, sawDigit =>
    if 48 ≤ c.toNat && c.toNat ≤ 57 then
      parseDigitsGo cs (acc * 10 + (c.toNat - 48)) true
    else if sawDigit then some (acc, c :: cs) else none

/-- Greedy decimal parse of one or more digits. -/
def parseDigits (l : List Char) : Option (Nat × List Char) :=
  parseDigitsGo l 0 false

/-- The tail of the hunk-header regular expression, ` \+(\d+,)?(\d+)?`:
the added-line count is the optional third group.  When that group is
absent the source computes `parseInt(undefined)` = NaN; since NaN is
falsy exactly like `0` in every later use of `counter`, the absent
group is modelled as `0`. -/
def parseHunkPlus : List Char → Option Nat
  | ' ' :: '+' :: rest =>
    (match parseDigits rest with
     | none => some 0
     | some (n, rest1) =>
       match rest1 with
       | ',' :: rest2 =>
         (match parseDigits rest2 with
          | none => some 0
          | some (m, _) => some m)
       | _ => some n)
  | _ => none

/-- Models the match of `/^@@ -(\d+,)?\d+ \+(\d+,)?(\d+)?/`: `some n`
when the line is a hunk header with added-line count `n` (0 for an
absent count group), `none` when the regular expression does not
match. -/
def parseHunkHeader (line : String) : Option Nat :=
  match line.data with
  | '@' :: '@' :: ' ' :: '-' :: rest =>
    (match parseDigits rest with
     | none => none
     | some (_, rest1) =>
       match rest1 with
       | ',' :: rest2 =>
         (match parseDigits rest2 with
          | none => none
          | some (_, rest3) => parseHunkPlus rest3)
       | _ => parseHunkPlus rest1)
  | _ => none

/-- The mutable state threaded through `lineHandler`: the accumulation
buffer, the remaining-line counter, and the known-keys set (mutated by
`mboxHandler`). -/
structure ScanSt where
  buffer : String
  counter : Nat
  keys : List String
deriving Repr

/-- Embeds `lineHandler`.  A hunk header resets the buffer and loads
the counter; while the counter is positive each line is appended with
its first character stripped plus a newline; when the counter reaches
zero the buffer is handed to the MIME collaborator and, on success, to
`mboxHandler` — any rejection of either is caught, logged and
skipped. -/
def lineHandler (env : Env) (st : ScanSt) (line : String) :
    ScanSt × List Effect :=
  if strStartsWith line "@@ " then
    match parseHunkHeader line with
    | some n => ({ st with counter := n, buffer := "" }, [])
    | none => (st, [])
  else if st.counter ≠ 0 then
    let buffer := st.buffer ++ substrFrom line 1 ++ "\n"
    if st.counter - 1 ≠ 0 then
      ({ st with buffer := buffer, counter := st.counter - 1 }, [])
    else
      match env.parseMIDRefs buffer with
      | .error _ => ({ st with buffer := buffer, counter := 0 },
                     [.mimeParse buffer])
      | .ok (mid, refs) =>
        ({ buffer := buffer, counter := 0,
           keys := (mboxHandler env st.keys mid refs buffer).2.1 },
         .mimeParse buffer :: (mboxHandler env st.keys mid refs buffer).2.2)
  else (st, [])

/-- Fold `lineHandler` over the streamed diff lines, accumulating the
effect trace. -/
def runLines (env : Env) (st : ScanSt) : List String → ScanSt × List Effect
  | [] => (st, [])
  | l :: ls =>
    ((runLines env (lineHandler env st l).1 ls).1,
     (lineHandler env st l).2 ++ (runLines env (lineHandler env st l).1 ls).2)

/-! ### The scan orchestration (`processMails`) -/

/-- The cursor actually compared against the branch head: the stored
`latestRevision`, or the fixed initial revision when the stored value
is falsy (absent or empty). -/
def effectiveLatest (state : IGitMailingListMirrorState) : String :=
  match state.latestRevision with
  | none => initialRevision
  | some r => if r.isEmpty then initialRevision else r

/-- Embeds `processMails`: list the notes tree into the known-keys set,
resolve the archive head, return `false` if it equals the cursor;
otherwise stream `git log -p --reverse cursor..head` through
`lineHandler`, then advance and persist the cursor and return `true`. -/
def processMails (env : Env) (state : IGitMailingListMirrorState) :
    Except String Bool × List Effect :=
  match env.lsTree with
  | .error e => (.error e, [.lsTree])
  | .ok lines =>
    match env.revParse with
    | .error e => (.error e, [.lsTree, .archiveHead])
    | .ok head =>
      if effectiveLatest state = head then (.ok false, [.lsTree, .archiveHead])
      else
        match env.logLines with
        | .error e =>
          (.error e, [.lsTree, .archiveHead,
                      .archiveLog (effectiveLatest state ++ ".." ++ head)])
        | .ok dls =>
          match env.setState ⟨some head⟩ with
          | .error e => (.error e,
              [.lsTree, .archiveHead,
               .archiveLog (effectiveLatest state ++ ".." ++ head)] ++
              (runLines env ⟨"", 0, lines.map lsTreeKey⟩ dls).2)
          | .ok _ => (.ok true,
              [.lsTree, .archiveHead,
               .archiveLog (effectiveLatest state ++ ".." ++ head)] ++
              (runLines env ⟨"", 0, lines.map lsTreeKey⟩ dls).2 ++
              [.stateWrite head])

/-- A default oracle environment for concrete test scenarios. -/
def envBase : Env where
  lsTree := .ok []
  revParse := .ok "h2"
  logLines := .ok []
  notesGet := fun _ => .ok none
  notesSet := fun _ _ => .ok ()
  setState := fun _ => .ok ()
  parseMBox := fun _ => .ok ⟨"hi", some "Dev", []⟩
  parseMIDRefs := fun _ => .error "unused"
  addPRCommentReply := fun _ _ _ => .ok 100
  addPRCommitComment := fun _ _ _ _ => .ok 101
  addPRComment := fun _ _ => .ok 102
  decodeBase64 := id
  decodeQuotedPrintable := id
  prFilter := none
  workDir := "wd"

/-! ### Sanity checks of the hasher against git's own object names -/

/-- `hashKey ""` is git's well-known name for a blob holding one
newline. -/
theorem hashKey_empty :
    hashKey "" = "8b137891791fe96927ad78e64b0aad7bded08bdc" := by decide

/-- `hashKey` on plain ASCII matches `git hash-object` of
"hello\n". -/
theorem hashKey_ascii :
    hashKey "hello" = "ce013625030ba8dba906f756967f9e9ca394464a" := by decide

/-- `hashKey` on a multi-byte key matches `git hash-object` of the
utf8 bytes of "é\n" (content length 3, not 2). -/
theorem hashKey_multibyte :
    hashKey "é" = "c6003325155f475bd7c87731607525dce73be9cf" := by decide

/-! ### Generic lemmas -/

theorem utf8Chars_append (a b : List Char) :
    utf8Chars (a ++ b) = utf8Chars a ++ utf8Chars b := by
  induction a with
  | nil => simp [utf8Chars]
  | cons c cs ih => simp [utf8Chars, ih]

theorem utf8_append (s t : String) : utf8 (s ++ t) = utf8 s ++ utf8 t := by
  show utf8Chars (s ++ t).data = utf8Chars s.data ++ utf8Chars t.data
  rw [String.data_append, utf8Chars_append]

theorem filter_nil_of_none {α : Type} (p : α → Bool) :
    ∀ (l : List α), (∀ e ∈ l, p e = false) → l.filter p = [] := by
  intro l
  induction l with
  | nil => intro _; rfl
  | cons e es ih =>
    intro h
    have he := h e (by simp)
    rw [List.filter_cons_of_neg (by simp [he])]
    exact ih fun x hx => h x (by simp [hx])

/-! ### Shape of the effect traces -/

theorem mergeLoop_effects_kvRead (env : Env) :
    ∀ (refs : List String) (st : MergeState),
      ∀ e ∈ (mergeLoop env refs st).2, e.isKvRead = true := by
  intro refs
  induction refs with
  | nil => intro st e he; simp [mergeLoop] at he
  | cons r rs ih =>
    intro st e he
    simp only [mergeLoop] at he
    cases hg : env.notesGet r with
    | error err =>
      rw [hg] at he
      simp at he
      subst he
      rfl
    | ok data =>
      rw [hg] at he
      simp at he
      rcases he with h | h
      · subst h; rfl
      · exact ih _ e h

/-- Effects a single message's `mboxHandler` run can produce: notes
reads, code-hosting calls, and the record write. -/
def Effect.fromMessage : Effect → Bool
  | .kvRead _ => true
  | .kvWrite _ _ => true
  | .hostReply _ _ => true
  | .hostCommitComment _ _ => true
  | .hostComment _ => true
  | _ => false

theorem kvRead_fromMessage (e : Effect) (h : e.isKvRead = true) :
    e.fromMessage = true := by
  cases e <;> simp_all [Effect.isKvRead, Effect.fromMessage]

theorem recordAndAdd_effects (env : Env) (keys : List String) (mid : String)
    (st : MergeState) (pr : String) (icId : Option Nat) (effs : List Effect)
    (h : ∀ e ∈ effs, e.fromMessage = true) :
    ∀ e ∈ (recordAndAdd env keys mid st pr icId effs).2.2,
      e.fromMessage = true := by
  intro e he
  unfold recordAndAdd at he
  cases hs : env.notesSet mid ⟨mid, some pr, st.originalCommit, icId⟩ with
  | error err => rw [hs] at he; simp at he; exact h e he
  | ok u =>
    rw [hs] at he
    simp at he
    rcases he with h1 | h1
    · exact h e h1
    · subst h1; rfl

theorem deliverAndRecord_effects (env : Env) (keys : List String) (mid : String)
    (st : MergeState) (pr comment : String) (effs : List Effect)
    (h : ∀ e ∈ effs, e.fromMessage = true) :
    ∀ e ∈ (deliverAndRecord env keys mid st pr comment effs).2.2,
      e.fromMessage = true := by
  intro e he
  unfold deliverAndRecord at he
  by_cases hic : truthyN st.issueCommentId
  · rw [if_pos hic] at he
    cases hr : env.addPRCommentReply pr (st.issueCommentId.getD 0) comment with
    | error err =>
      rw [hr] at he; simp at he
      rcases he with h1 | h1
      · exact h e h1
      · subst h1; rfl
    | ok rid =>
      rw [hr] at he
      refine recordAndAdd_effects env keys mid st pr (some rid) _ ?_ e he
      intro x hx
      rcases List.mem_append.mp hx with h1 | h1
      · exact h x h1
      · simp at h1; subst h1; rfl
  · rw [if_neg hic] at he
    by_cases hoc : truthyS st.originalCommit
    · rw [if_pos hoc] at he
      cases hr : env.addPRCommitComment pr (st.originalCommit.getD "")
          env.workDir comment with
      | error err =>
        rw [hr] at he; simp at he
        rcases he with h1 | h1
        · exact h e h1
        · subst h1; rfl
      | ok rid =>
        rw [hr] at he
        refine recordAndAdd_effects env keys mid st pr (some rid) _ ?_ e he
        intro x hx
        rcases List.mem_append.mp hx with h1 | h1
        · exact h x h1
        · simp at h1; subst h1; rfl
    · rw [if_neg hoc] at he
      cases hr : env.addPRComment pr comment with
      | error err =>
        rw [hr] at he; simp at he
        rcases he with h1 | h1
        · exact h e h1
        · subst h1; rfl
      | ok rid =>
        rw [hr] at he
        refine recordAndAdd_effects env keys mid st pr st.issueCommentId _ ?_ e he
        intro x hx
        rcases List.mem_append.mp hx with h1 | h1
        · exact h x h1
        · simp at h1; subst h1; rfl

theorem mboxHandler_effects (env : Env) (keys : List String) (mid : String)
    (references : List String) (mbox : String) :
    ∀ e ∈ (mboxHandler env keys mid references mbox).2.2,
      e.fromMessage = true := by
  intro e he
  unfold mboxHandler at he
  by_cases hs : seen keys mid
  · rw [if_pos hs] at he; simp at he
  · rw [if_neg hs] at he
    have hm := mergeLoop_effects_kvRead env (references.filter (seen keys))
      initMerge
    cases hml : mergeLoop env (references.filter (seen keys)) initMerge with
    | mk r effs =>
      rw [hml] at he hm
      cases r with
      | error err =>
        simp at he hm
        exact kvRead_fromMessage e (hm e he)
      | ok st =>
        simp only at he hm
        cases hpu : st.pullRequestURL with
        | none =>
          rw [hpu] at he; simp at he
          exact kvRead_fromMessage e (hm e he)
        | some pr =>
          rw [hpu] at he
          by_cases hemp : pr.isEmpty
          · simp [hemp] at he
            exact kvRead_fromMessage e (hm e he)
          · simp only [hemp, Bool.false_eq_true, if_false] at he
            cases hp : env.parseMBox mbox with
            | error err =>
              rw [hp] at he; simp at he
              exact kvRead_fromMessage e (hm e he)
            | ok parsed =>
              rw [hp] at he
              simp only at he
              exact deliverAndRecord_effects env keys mid st pr _ effs
                (fun x hx => kvRead_fromMessage x (hm x hx)) e he

/-! ### Claim C3: the content hasher -/

/-- The reference digest input prescribed by the spec:
`"blob " + (byteLength(key)+1) + NUL + key + "\n"`, as bytes.
Modelled from the spec's words, to be compared with `hashKey`. -/
def specHashInput (key : String) : List Nat :=
  utf8 "blob " ++ utf8 (toString (byteLength key + 1)) ++ [0] ++
  utf8 key ++ [10]

/-- Claim C3: for every string key, `hashKey key` equals the SHA-1 hex
digest of the bytes `"blob " + (byteLength(key)+1) + NUL + key + "\n"`,
i.e. the git object name of the key plus one trailing newline. -/
theorem c3_hashKey_matches_spec (key : String) :
    hashKey key = sha1Hex (specHashInput key) := by
  have h0 : utf8 "\x00" = [0] := by decide
  have hn : utf8 "\n" = [10] := by decide
  unfold hashKey specHashInput
  rw [utf8_append, utf8_append, utf8_append, h0, hn]
  simp [List.append_assoc]

/-! ### Claim C2: known digests are never delivered again -/

/-- Claim C2: a message whose message-id digest is already in the
known-keys set is skipped before any external call: the handler
returns at once, with no effects and the key set unchanged. -/
theorem c2_seen_not_delivered (env : Env) (keys : List String)
    (messageID : String) (references : List String) (mbox : String)
    (h : seen keys messageID = true) :
    mboxHandler env keys messageID references mbox = (.ok (), keys, []) := by
  simp [mboxHandler, h]

/-- Witness for C2 at a concrete input. -/
theorem c2_witness :
    seen [hashKey "m@x"] "m@x" = true
    ∧ mboxHandler envBase [hashKey "m@x"] "m@x" ["a@x"] "raw"
        = (.ok (), [hashKey "m@x"], []) :=
  ⟨by decide, c2_seen_not_delivered envBase [hashKey "m@x"] "m@x" ["a@x"] "raw"
     (by decide)⟩

/-! ### Claim C10: every skip path is effect-free -/

theorem mergeLoop_filter_host (env : Env) (refs : List String)
    (st : MergeState) :
    ((mergeLoop env refs st).2).filter Effect.isHost = [] :=
  filter_nil_of_none _ _ fun e he => by
    have h := mergeLoop_effects_kvRead env refs st e he
    cases e <;> simp_all [Effect.isKvRead, Effect.isHost]

theorem mergeLoop_filter_kvWrite (env : Env) (refs : List String)
    (st : MergeState) :
    ((mergeLoop env refs st).2).filter Effect.isKvWrite = [] :=
  filter_nil_of_none _ _ fun e he => by
    have h := mergeLoop_effects_kvRead env refs st e he
    cases e <;> simp_all [Effect.isKvRead, Effect.isKvWrite]

/-- Reduction of `mboxHandler` once the outcome of the candidate merge
is known. -/
theorem mboxHandler_eq_of_merge (env : Env) (keys : List String)
    (messageID mbox : String) (references : List String) (st : MergeState)
    (effsM : List Effect)
    (hs : seen keys messageID = false)
    (hm : mergeLoop env (references.filter (seen keys)) initMerge
            = (.ok st, effsM)) :
    mboxHandler env keys messageID references mbox =
      match st.pullRequestURL with
      | none => (.ok (), keys, effsM)
      | some pullRequestURL =>
        if pullRequestURL.isEmpty then (.ok (), keys, effsM)
        else
          match env.parseMBox mbox with
          | .error e => (.error e, keys, effsM)
          | .ok parsed =>
            deliverAndRecord env keys messageID st pullRequestURL
              (commentHeader messageID parsed ++ mbox2markdown env parsed)
              effsM := by
  unfold mboxHandler
  rw [if_neg (by simp [hs]), hm]

/-- Claim C10: when a message is skipped — its digest already known, or
the merged candidates leave no (truthy) pullRequestURL, which covers
both "no reference resolves to a record with a URL" and "every
candidate vetoed by the filter" — no code-hosting call is made, no
record is written, and the known-keys set is unchanged, so the message
stays eligible for a later scan. -/
theorem c10_skip_frame (env : Env) (keys : List String)
    (messageID mbox : String) (references : List String)
    (h : seen keys messageID = true ∨
         ∃ st effsM,
           mergeLoop env (references.filter (seen keys)) initMerge
             = (.ok st, effsM)
           ∧ truthyS st.pullRequestURL = false) :
    (mboxHandler env keys messageID references mbox).2.1 = keys
    ∧ ((mboxHandler env keys messageID references mbox).2.2).filter
        Effect.isHost = []
    ∧ ((mboxHandler env keys messageID references mbox).2.2).filter
        Effect.isKvWrite = [] := by
  rcases h with h | ⟨st, effsM, hm, hpr⟩
  · simp [mboxHandler, h]
  · by_cases hs : seen keys messageID
    · simp [mboxHandler, hs]
    · have heff : effsM = (mergeLoop env (references.filter (seen keys))
          initMerge).2 := by rw [hm]
      have key : mboxHandler env keys messageID references mbox
          = (.ok (), keys, effsM) := by
        rw [mboxHandler_eq_of_merge env keys messageID mbox references st effsM
              (by simp [hs]) hm]
        cases hpu : st.pullRequestURL with
        | none => rfl
        | some pr =>
          rw [hpu] at hpr
          have hemp : pr.isEmpty = true := by
            simpa [truthyS] using hpr
          simp [hemp]
      rw [key]
      exact ⟨rfl, by rw [heff]; exact mergeLoop_filter_host env _ _,
             by rw [heff]; exact mergeLoop_filter_kvWrite env _ _⟩

/-- An environment whose caller-supplied filter vetoes every pull
request URL, while a known reference does resolve to a record. -/
def envVeto : Env :=
  { envBase with
    prFilter := some fun _ => false,
    notesGet := fun r =>
      if r = "a@x" then .ok (some ⟨"a@x", some "PR", none, none⟩)
      else .ok none }

/-- Witness for C10: a run in which the caller-supplied filter vetoes
the only candidate, so no URL is resolved and nothing happens. -/
theorem c10_witness :
    (mboxHandler envVeto [hashKey "a@x"] "m@x" ["a@x"] "raw").2.1
      = [hashKey "a@x"]
    ∧ ((mboxHandler envVeto [hashKey "a@x"] "m@x" ["a@x"] "raw").2.2).filter
        Effect.isHost = []
    ∧ ((mboxHandler envVeto [hashKey "a@x"] "m@x" ["a@x"] "raw").2.2).filter
        Effect.isKvWrite = [] :=
  c10_skip_frame envVeto [hashKey "a@x"] "m@x" "raw" ["a@x"]
    (Or.inr ⟨initMerge, [Effect.kvRead "a@x"], rfl, rfl⟩)

/-! ### Claim C5: delivery-mode precedence -/

/-- The delivery mode the spec prescribes for a resolved target
(§4.3 step 6), as the single host effect it should produce.  Written
from the spec's words, to be compared with the code's behaviour. -/
def chosenHostEffect (st : MergeState) : Effect :=
  if truthyN st.issueCommentId then
    .hostReply (st.pullRequestURL.getD "") (st.issueCommentId.getD 0)
  else if truthyS st.originalCommit then
    .hostCommitComment (st.pullRequestURL.getD "") (st.originalCommit.getD "")
  else .hostComment (st.pullRequestURL.getD "")

theorem recordAndAdd_hosts (env : Env) (keys : List String) (mid : String)
    (st : MergeState) (pr : String) (icId : Option Nat) (effs : List Effect) :
    ((recordAndAdd env keys mid st pr icId effs).2.2).filter Effect.isHost
      = effs.filter Effect.isHost := by
  unfold recordAndAdd
  cases hs : env.notesSet mid ⟨mid, some pr, st.originalCommit, icId⟩ with
  | error err => rfl
  | ok u => simp [List.filter_append, Effect.isHost]

theorem deliverAndRecord_hosts (env : Env) (keys : List String) (mid : String)
    (st : MergeState) (pr comment : String) (effs : List Effect)
    (h : effs.filter Effect.isHost = []) :
    ((deliverAndRecord env keys mid st pr comment effs).2.2).filter
        Effect.isHost
      = [if truthyN st.issueCommentId then
           Effect.hostReply pr (st.issueCommentId.getD 0)
         else if truthyS st.originalCommit then
           Effect.hostCommitComment pr (st.originalCommit.getD "")
         else Effect.hostComment pr] := by
  unfold deliverAndRecord
  by_cases hic : truthyN st.issueCommentId
  · rw [if_pos hic]
    cases hr : env.addPRCommentReply pr (st.issueCommentId.getD 0) comment with
    | error err => simp [hic, List.filter_append, h, Effect.isHost]
    | ok rid =>
      rw [recordAndAdd_hosts]
      simp [hic, List.filter_append, h, Effect.isHost]
  · rw [if_neg hic]
    by_cases hoc : truthyS st.originalCommit
    · rw [if_pos hoc]
      cases hr : env.addPRCommitComment pr (st.originalCommit.getD "")
          env.workDir comment with
      | error err => simp [hic, hoc, List.filter_append, h, Effect.isHost]
      | ok rid =>
        rw [recordAndAdd_hosts]
        simp [hic, hoc, List.filter_append, h, Effect.isHost]
    · rw [if_neg hoc]
      cases hr : env.addPRComment pr comment with
      | error err => simp [hic, hoc, List.filter_append, h, Effect.isHost]
      | ok rid =>
        rw [recordAndAdd_hosts]
        simp [hic, hoc, List.filter_append, h, Effect.isHost]

/-- Claim C5: once a target with a (truthy) pullRequestURL is resolved
for an unseen message that parses, exactly one code-hosting call is
made, chosen by the fixed precedence issueCommentId → originalCommit →
plain thread comment — whether or not that call (or the later record
write) succeeds. -/
theorem c5_delivery_mode (env : Env) (keys : List String)
    (messageID mbox : String) (references : List String) (st : MergeState)
    (effsM : List Effect) (parsed : IParsedMBox)
    (hseen : seen keys messageID = false)
    (hmerge : mergeLoop env (references.filter (seen keys)) initMerge
                = (.ok st, effsM))
    (hpr : truthyS st.pullRequestURL = true)
    (hparse : env.parseMBox mbox = .ok parsed) :
    ((mboxHandler env keys messageID references mbox).2.2).filter
        Effect.isHost
      = [chosenHostEffect st] := by
  have heff : effsM = (mergeLoop env (references.filter (seen keys))
      initMerge).2 := by rw [hmerge]
  have hfil : effsM.filter Effect.isHost = [] := by
    rw [heff]; exact mergeLoop_filter_host env _ _
  rw [mboxHandler_eq_of_merge env keys messageID mbox references st effsM
        hseen hmerge]
  cases hpu : st.pullRequestURL with
  | none => rw [hpu] at hpr; simp [truthyS] at hpr
  | some pr =>
    have hemp : pr.isEmpty = false := by
      rw [hpu] at hpr; simpa [truthyS] using hpr
    simp only [hemp, Bool.false_eq_true, if_false, hparse]
    rw [deliverAndRecord_hosts env keys messageID st pr _ effsM hfil]
    simp [chosenHostEffect, hpu]

/-- An environment in which one known reference carries both a pull
request URL and an issue comment id. -/
def envReply : Env :=
  { envBase with
    notesGet := fun r =>
      if r = "b@x" then .ok (some ⟨"b@x", some "PR", none, some 7⟩)
      else .ok none }

/-- Witness for C5: with a merged target carrying issueCommentId 7, the
one host call is the reply to comment 7. -/
theorem c5_witness :
    ((mboxHandler envReply [hashKey "b@x"] "m@x" ["b@x"] "raw").2.2).filter
        Effect.isHost
      = [chosenHostEffect ⟨some "PR", none, some 7⟩] :=
  c5_delivery_mode envReply [hashKey "b@x"] "m@x" "raw" ["b@x"]
    ⟨some "PR", none, some 7⟩ [Effect.kvRead "b@x"] ⟨"hi", some "Dev", []⟩
    (by decide) rfl rfl rfl

/-! ### Claim C9: what the record stores after a successful delivery -/

/-- Evaluation of the delivery branch when every collaborator call
succeeds: the host call of the chosen mode is made, then the record is
written and the digest appended to the known keys.  In the reply and
commit-comment modes the stored `issueCommentId` is the id returned by
the glue; in the plain-comment mode it is the (falsy) merged value —
the returned id is discarded. -/
theorem deliverAndRecord_success (env : Env) (keys : List String)
    (mid : String) (st : MergeState) (pr comment : String)
    (effs : List Effect) (r1 r2 r3 : Nat)
    (hreply : ∀ p c b, env.addPRCommentReply p c b = .ok r1)
    (hcommit : ∀ p c w b, env.addPRCommitComment p c w b = .ok r2)
    (hcomment : ∀ p b, env.addPRComment p b = .ok r3)
    (hset : ∀ k v, env.notesSet k v = .ok ()) :
    deliverAndRecord env keys mid st pr comment effs
      = (.ok (), keys ++ [hashKey mid],
         effs ++
         [if truthyN st.issueCommentId then
            Effect.hostReply pr (st.issueCommentId.getD 0)
          else if truthyS st.originalCommit then
            Effect.hostCommitComment pr (st.originalCommit.getD "")
          else Effect.hostComment pr,
          Effect.kvWrite mid ⟨mid, some pr, st.originalCommit,
            if truthyN st.issueCommentId then some r1
            else if truthyS st.originalCommit then some r2
            else st.issueCommentId⟩]) := by
  unfold deliverAndRecord recordAndAdd
  by_cases hic : truthyN st.issueCommentId
  · simp [hic, hreply, hset, List.append_assoc]
  · by_cases hoc : truthyS st.originalCommit
    · simp [hic, hoc, hcommit, hset, List.append_assoc]
    · simp [hic, hoc, hcomment, hset, List.append_assoc]

/-- Claim C9 — amended.  On a scan where every collaborator call
succeeds, after delivery the message's digest is appended to the
in-memory known-keys set at once and a record is written under the
message id; in the reply and commit-comment modes that record's
`issueCommentId` is the id returned by the code-hosting call, but in
the plain thread-comment mode the returned id is discarded and the
record keeps the merged (falsy) value. -/
theorem c9_amended (env : Env) (keys : List String)
    (messageID mbox : String) (references : List String) (st : MergeState)
    (effsM : List Effect) (parsed : IParsedMBox) (r1 r2 r3 : Nat)
    (hseen : seen keys messageID = false)
    (hmerge : mergeLoop env (references.filter (seen keys)) initMerge
                = (.ok st, effsM))
    (hpr : truthyS st.pullRequestURL = true)
    (hparse : env.parseMBox mbox = .ok parsed)
    (hreply : ∀ p c b, env.addPRCommentReply p c b = .ok r1)
    (hcommit : ∀ p c w b, env.addPRCommitComment p c w b = .ok r2)
    (hcomment : ∀ p b, env.addPRComment p b = .ok r3)
    (hset : ∀ k v, env.notesSet k v = .ok ()) :
    (mboxHandler env keys messageID references mbox).1 = .ok ()
    ∧ (mboxHandler env keys messageID references mbox).2.1
        = keys ++ [hashKey messageID]
    ∧ Effect.kvWrite messageID
        ⟨messageID, st.pullRequestURL, st.originalCommit,
         if truthyN st.issueCommentId then some r1
         else if truthyS st.originalCommit then some r2
         else st.issueCommentId⟩
        ∈ (mboxHandler env keys messageID references mbox).2.2 := by
  rw [mboxHandler_eq_of_merge env keys messageID mbox references st effsM
        hseen hmerge]
  cases hpu : st.pullRequestURL with
  | none => rw [hpu] at hpr; simp [truthyS] at hpr
  | some pr =>
    have hemp : pr.isEmpty = false := by
      rw [hpu] at hpr; simpa [truthyS] using hpr
    simp only [hemp, Bool.false_eq_true, if_false, hparse]
    rw [deliverAndRecord_success env keys messageID st pr _ effsM r1 r2 r3
          hreply hcommit hcomment hset]
    refine ⟨rfl, rfl, ?_⟩
    simp [List.mem_append]

/-- An environment in which one known reference carries a pull request
URL only, and the glue returns distinct ids per delivery mode. -/
def envPlain : Env :=
  { envBase with
    addPRComment := fun _ _ => .ok 42,
    notesGet := fun r =>
      if r = "a@x" then .ok (some ⟨"a@x", some "PR", none, none⟩)
      else .ok none }

/-- Witness for the amended C9, in the plain-comment mode: the record
keeps `issueCommentId = none` although the glue returned id 42, and the
digest is appended to the keys. -/
theorem c9_amended_witness :
    (mboxHandler envPlain [hashKey "a@x"] "m@x" ["a@x"] "raw").1 = .ok ()
    ∧ (mboxHandler envPlain [hashKey "a@x"] "m@x" ["a@x"] "raw").2.1
        = [hashKey "a@x"] ++ [hashKey "m@x"]
    ∧ Effect.kvWrite "m@x" ⟨"m@x", some "PR", none, none⟩
        ∈ (mboxHandler envPlain [hashKey "a@x"] "m@x" ["a@x"] "raw").2.2 :=
  c9_amended envPlain [hashKey "a@x"] "m@x" "raw" ["a@x"]
    ⟨some "PR", none, none⟩ [Effect.kvRead "a@x"] ⟨"hi", some "Dev", []⟩
    100 101 42
    (by decide) rfl rfl rfl (fun _ _ _ => rfl) (fun _ _ _ _ => rfl)
    (fun _ _ => rfl) (fun _ _ => rfl)

/-- Counterexample to C9 as stated: in the plain thread-comment mode
the glue's returned id (42) does **not** become `issueCommentId` — the
record is written with `issueCommentId = none`. -/
theorem c9_counterexample :
    envPlain.addPRComment "PR" "x" = .ok 42
    ∧ (mboxHandler envPlain [hashKey "a@x"] "m@x" ["a@x"] "raw").2.2
        = [Effect.kvRead "a@x", Effect.hostComment "PR",
           Effect.kvWrite "m@x" ⟨"m@x", some "PR", none, none⟩] :=
  ⟨rfl, by decide⟩

/-! ### Claim C1: the candidate merge loses fields on adoption -/

/-- An environment with three known thread records: A carries only a
pull request URL, B also an issue comment id, C also an original
commit. -/
def envABC : Env :=
  { envBase with
    notesGet := fun r =>
      if r = "a@x" then .ok (some ⟨"a@x", some "PR", none, none⟩)
      else if r = "b@x" then .ok (some ⟨"b@x", some "PR", none, some 7⟩)
      else if r = "c@x" then
        .ok (some ⟨"c@x", some "PR", some "deadbeef", none⟩)
      else .ok none }

/-- The known-keys set containing exactly the three references. -/
def keysABC : List String := [hashKey "a@x", hashKey "b@x", hashKey "c@x"]

/-- Counterexample to C1 as stated: with records A = {pullRequestURL},
B = {pullRequestURL, issueCommentId}, C = {pullRequestURL,
originalCommit} resolved in that order, adopting C's originalCommit
overwrites all three variables, so the merged target has **no**
issueCommentId and the delivery mode is a commit-scoped comment — not a
reply to B's comment as the claim requires. -/
theorem c1_counterexample :
    (mergeLoop envABC ["a@x", "b@x", "c@x"] initMerge).1
      = .ok ⟨some "PR", some "deadbeef", none⟩
    ∧ ((mboxHandler envABC keysABC "m@x" ["a@x", "b@x", "c@x"]
          "raw").2.2).filter Effect.isHost
        = [Effect.hostCommitComment "PR" "deadbeef"] :=
  ⟨rfl, by decide⟩

/-- Claim C1 — amended.  For records A = {pullRequestURL},
B = {pullRequestURL, issueCommentId}, C = {pullRequestURL,
originalCommit} resolved in that order, the merge yields
{pullRequestURL, originalCommit} — B's issueCommentId is lost, because
an adoption overwrites all three fields — and the delivery mode
selected is the commit-scoped comment (originalCommit wins, since the
merged issueCommentId is gone). -/
theorem c1_amended (env : Env) (keys : List String)
    (messageID mbox : String) (references : List String)
    (rA rB rC pr commit : String) (cid : Nat) (parsed : IParsedMBox)
    (hA : env.notesGet rA = .ok (some ⟨rA, some pr, none, none⟩))
    (hB : env.notesGet rB = .ok (some ⟨rB, some pr, none, some cid⟩))
    (hC : env.notesGet rC = .ok (some ⟨rC, some pr, some commit, none⟩))
    (hfilter : env.prFilter = none)
    (hprE : pr.isEmpty = false)
    (hcommitE : commit.isEmpty = false)
    (hcid : cid ≠ 0)
    (hCpull : strStartsWith rC "pull" = false)
    (hseen : seen keys messageID = false)
    (hrefs : references.filter (seen keys) = [rA, rB, rC])
    (hparse : env.parseMBox mbox = .ok parsed) :
    mergeLoop env [rA, rB, rC] initMerge
      = (.ok ⟨some pr, some commit, none⟩,
         [Effect.kvRead rA, Effect.kvRead rB, Effect.kvRead rC])
    ∧ ((mboxHandler env keys messageID references mbox).2.2).filter
        Effect.isHost = [Effect.hostCommitComment pr commit] := by
  have hcid' : (cid != 0) = true := by simpa using hcid
  have s1 : mergeStep env rA (some ⟨rA, some pr, none, none⟩) initMerge
      = ⟨some pr, none, none⟩ := by
    simp [mergeStep, initMerge, hfilter, hprE, truthyS, truthyN]
  have s2 : mergeStep env rB (some ⟨rB, some pr, none, some cid⟩)
      ⟨some pr, none, none⟩ = ⟨some pr, none, some cid⟩ := by
    simp [mergeStep, hfilter, hprE, truthyS, truthyN, hcid']
  have s3 : mergeStep env rC (some ⟨rC, some pr, some commit, none⟩)
      ⟨some pr, none, some cid⟩ = ⟨some pr, some commit, none⟩ := by
    simp [mergeStep, hfilter, hprE, hcommitE, hCpull, truthyS, truthyN]
  have hml : mergeLoop env [rA, rB, rC] initMerge
      = (.ok ⟨some pr, some commit, none⟩,
         [Effect.kvRead rA, Effect.kvRead rB, Effect.kvRead rC]) := by
    simp only [mergeLoop, hA, hB, hC, s1, s2, s3]
  refine ⟨hml, ?_⟩
  rw [mboxHandler_eq_of_merge env keys messageID mbox references
        ⟨some pr, some commit, none⟩
        [Effect.kvRead rA, Effect.kvRead rB, Effect.kvRead rC]
        hseen (by rw [hrefs]; exact hml)]
  simp only [hprE, Bool.false_eq_true, if_false, hparse]
  rw [deliverAndRecord_hosts env keys messageID ⟨some pr, some commit, none⟩
        pr _ _ (by simp [List.filter, Effect.isHost])]
  simp [truthyN, truthyS, hcommitE]

/-- Witness for the amended C1 at the concrete A/B/C scenario. -/
theorem c1_amended_witness :
    mergeLoop envABC ["a@x", "b@x", "c@x"] initMerge
      = (.ok ⟨some "PR", some "deadbeef", none⟩,
         [Effect.kvRead "a@x", Effect.kvRead "b@x", Effect.kvRead "c@x"])
    ∧ ((mboxHandler envABC keysABC "m@x" ["a@x", "b@x", "c@x"]
          "raw").2.2).filter Effect.isHost
        = [Effect.hostCommitComment "PR" "deadbeef"] :=
  c1_amended envABC keysABC "m@x" "raw" ["a@x", "b@x", "c@x"]
    "a@x" "b@x" "c@x" "PR" "deadbeef" 7 ⟨"hi", some "Dev", []⟩
    rfl rfl rfl rfl rfl rfl (by decide) (by decide) (by decide)
    (by decide) rfl

/-! ### Claim C4: the diff-to-message reconstructor -/

/-- The text the spec says the reconstructor accumulates for the
collected lines: each line with its first (diff-marker) character
stripped, plus a trailing newline.  Written from the spec's words. -/
def emittedBody : List String → String
  | [] => ""
  | l :: ls => substrFrom l 1 ++ "\n" ++ emittedBody ls

theorem strAppend_assoc (a b c : String) : a ++ b ++ c = a ++ (b ++ c) := by
  apply String.ext
  simp [String.data_append, List.append_assoc]

theorem strAppend_empty (s : String) : s ++ "" = s := by
  apply String.ext
  simp [String.data_append]

theorem mboxHandler_no_mime (env : Env) (keys : List String) (mid : String)
    (refs : List String) (mbox : String) :
    ((mboxHandler env keys mid refs mbox).2.2).filter Effect.isMimeParse
      = [] :=
  filter_nil_of_none _ _ fun e he => by
    have h := mboxHandler_effects env keys mid refs mbox e he
    cases e <;> simp_all [Effect.fromMessage, Effect.isMimeParse]

/-- Unfolding of `runLines` one line at a time. -/
theorem runLines_cons (env : Env) (st : ScanSt) (l : String)
    (ls : List String) :
    runLines env st (l :: ls)
      = ((runLines env (lineHandler env st l).1 ls).1,
         (lineHandler env st l).2 ++
         (runLines env (lineHandler env st l).1 ls).2) := rfl

/-- While `COLLECTING` with as many lines left as the counter says,
the machine appends every line (marker stripped, newline added) and, on
the last one, emits the buffer exactly once for parsing and returns to
counter 0. -/
theorem runLines_collect (env : Env) :
    ∀ (ls : List String) (st : ScanSt),
      st.counter = ls.length → ls ≠ [] →
      (∀ l ∈ ls, strStartsWith l "@@ " = false) →
      (runLines env st ls).1.counter = 0
      ∧ (runLines env st ls).1.buffer = st.buffer ++ emittedBody ls
      ∧ ((runLines env st ls).2).filter Effect.isMimeParse
          = [Effect.mimeParse (st.buffer ++ emittedBody ls)] := by
  intro ls
  induction ls with
  | nil => intro st _ hne _; exact absurd rfl hne
  | cons l ls ih =>
    intro st hc _ hhdr
    have hl : strStartsWith l "@@ " = false := hhdr l (by simp)
    cases ls with
    | nil =>
      have hc1 : st.counter = 1 := by simpa using hc
      have hred : lineHandler env st l
          = (match env.parseMIDRefs (st.buffer ++ substrFrom l 1 ++ "\n") with
             | .error _ =>
               ({ st with buffer := st.buffer ++ substrFrom l 1 ++ "\n",
                          counter := 0 },
                [.mimeParse (st.buffer ++ substrFrom l 1 ++ "\n")])
             | .ok (mid, refs) =>
               ({ buffer := st.buffer ++ substrFrom l 1 ++ "\n", counter := 0,
                  keys := (mboxHandler env st.keys mid refs
                    (st.buffer ++ substrFrom l 1 ++ "\n")).2.1 },
                .mimeParse (st.buffer ++ substrFrom l 1 ++ "\n") ::
                (mboxHandler env st.keys mid refs
                  (st.buffer ++ substrFrom l 1 ++ "\n")).2.2)) := by
        unfold lineHandler
        rw [if_neg (by simp [hl]), hc1]
        simp
      have hbody : st.buffer ++ substrFrom l 1 ++ "\n"
          = st.buffer ++ emittedBody [l] := by
        simp only [emittedBody, strAppend_empty, strAppend_assoc]
      cases hp : env.parseMIDRefs (st.buffer ++ substrFrom l 1 ++ "\n") with
      | error err =>
        have hrun : runLines env st [l]
            = ({ st with buffer := st.buffer ++ substrFrom l 1 ++ "\n",
                         counter := 0 },
               [.mimeParse (st.buffer ++ substrFrom l 1 ++ "\n")]) := by
          simp [runLines, hred, hp]
        rw [hrun]
        exact ⟨rfl, hbody,
               by simp [List.filter, Effect.isMimeParse, hbody]⟩
      | ok pair =>
        cases pair with
        | mk mid refs =>
          have hrun : runLines env st [l]
              = ({ buffer := st.buffer ++ substrFrom l 1 ++ "\n",
                   counter := 0,
                   keys := (mboxHandler env st.keys mid refs
                     (st.buffer ++ substrFrom l 1 ++ "\n")).2.1 },
                 .mimeParse (st.buffer ++ substrFrom l 1 ++ "\n") ::
                 (mboxHandler env st.keys mid refs
                   (st.buffer ++ substrFrom l 1 ++ "\n")).2.2) := by
            simp [runLines, hred, hp]
          rw [hrun]
          refine ⟨rfl, hbody, ?_⟩
          simp [List.filter, Effect.isMimeParse, hbody,
                mboxHandler_no_mime env st.keys mid refs]
    | cons l2 ls2 =>
      have hc2 : st.counter = ls2.length + 2 := by simpa using hc
      have hred : lineHandler env st l
          = (⟨st.buffer ++ substrFrom l 1 ++ "\n", st.counter - 1, st.keys⟩,
             []) := by
        unfold lineHandler
        rw [if_neg (by simp [hl]), hc2]
        simp
      have ihr := ih ⟨st.buffer ++ substrFrom l 1 ++ "\n", st.counter - 1,
                      st.keys⟩
        (by simp [hc2]) (by simp) (fun x hx => hhdr x (by simp [hx]))
      rw [runLines_cons, hred]
      refine ⟨?_, ?_, ?_⟩
      · simpa using ihr.1
      · have h2 := ihr.2.1
        simp only [emittedBody] at h2 ⊢
        simpa [strAppend_assoc] using h2
      · have h3 := ihr.2.2
        simp only [emittedBody] at h3 ⊢
        simpa [strAppend_assoc, List.filter] using h3

theorem strEmpty_append (s : String) : "" ++ s = s := by
  apply String.ext
  simp [String.data_append]

/-- Claim C4: a hunk header with positive added-line count n resets the
buffer and starts collecting; each of the following n (non-header)
lines is appended with its first character stripped plus a newline;
when the count reaches zero the buffer is emitted exactly once for
parsing and the machine is back to counter 0 (`SEEKING`). -/
theorem c4_reconstructor (env : Env) (st : ScanSt) (hline : String) (n : Nat)
    (ls : List String)
    (hstart : strStartsWith hline "@@ " = true)
    (hh : parseHunkHeader hline = some n)
    (hn : 0 < n)
    (hlen : ls.length = n)
    (hnohdr : ∀ l ∈ ls, strStartsWith l "@@ " = false) :
    (runLines env st (hline :: ls)).1.counter = 0
    ∧ (runLines env st (hline :: ls)).1.buffer = emittedBody ls
    ∧ ((runLines env st (hline :: ls)).2).filter Effect.isMimeParse
        = [Effect.mimeParse (emittedBody ls)] := by
  have hred : lineHandler env st hline
      = ({ st with counter := n, buffer := "" }, []) := by
    unfold lineHandler
    rw [if_pos hstart, hh]
  have hne : ls ≠ [] := by
    intro hnil
    rw [hnil] at hlen
    simp at hlen
    omega
  have hcol := runLines_collect env ls { st with counter := n, buffer := "" }
    (by simpa using hlen.symm) hne hnohdr
  rw [runLines_cons, hred]
  refine ⟨?_, ?_, ?_⟩
  · simpa using hcol.1
  · have h2 := hcol.2.1
    simpa [strEmpty_append] using h2
  · have h3 := hcol.2.2
    simpa [strEmpty_append, List.filter] using h3

/-- Witness for C4: a header announcing two added lines, followed by
two marker-prefixed lines; the buffer is reset (the stale "junk" is
discarded), both lines are collected stripped, and the message is
emitted once. -/
theorem c4_witness :
    (runLines envBase ⟨"junk", 0, []⟩
        ["@@ -0,0 +1,2 @@", "+line1", "+line2"]).1.counter = 0
    ∧ (runLines envBase ⟨"junk", 0, []⟩
        ["@@ -0,0 +1,2 @@", "+line1", "+line2"]).1.buffer
        = emittedBody ["+line1", "+line2"]
    ∧ ((runLines envBase ⟨"junk", 0, []⟩
        ["@@ -0,0 +1,2 @@", "+line1", "+line2"]).2).filter Effect.isMimeParse
        = [Effect.mimeParse (emittedBody ["+line1", "+line2"])] :=
  c4_reconstructor envBase ⟨"junk", 0, []⟩ "@@ -0,0 +1,2 @@" 2
    ["+line1", "+line2"] (by decide) (by decide) (by decide) (by decide)
    (by decide)

/-! ### Claim C6: a no-op scan has no observable effect -/

/-- Claim C6: when the archive's branch head equals the stored cursor,
the scan returns `false` and its trace is exactly the known-keys
listing and the head resolution — no code-hosting call, no KV write, no
state write, and no read of the archive's history. -/
theorem c6_noop_scan (env : Env) (state : IGitMailingListMirrorState)
    (lines : List String) (head : String)
    (hls : env.lsTree = .ok lines)
    (hhead : env.revParse = .ok head)
    (heq : effectiveLatest state = head) :
    processMails env state
      = (.ok false, [Effect.lsTree, Effect.archiveHead]) := by
  simp only [processMails, hls, hhead]
  rw [if_pos heq]

/-- Witness for C6 with a stored cursor equal to the head. -/
theorem c6_witness :
    processMails { envBase with revParse := .ok "h1" } ⟨some "h1"⟩
      = (.ok false, [Effect.lsTree, Effect.archiveHead]) :=
  c6_noop_scan { envBase with revParse := .ok "h1" } ⟨some "h1"⟩ [] "h1"
    rfl rfl rfl

/-! ### Claim C7: the cursor advances regardless of delivery outcomes -/

/-- Claim C7: whenever the head differs from the cursor and the
listing, log streaming and final state write succeed, the scan returns
`true` and persists the cursor at the head — with no assumption at all
on the code-hosting collaborator, so a failed delivery (caught and
logged per message) does not prevent the advance. -/
theorem c7_cursor_advances (env : Env) (state : IGitMailingListMirrorState)
    (lines dls : List String) (head : String)
    (hls : env.lsTree = .ok lines)
    (hhead : env.revParse = .ok head)
    (hne : effectiveLatest state ≠ head)
    (hlog : env.logLines = .ok dls)
    (hset : env.setState ⟨some head⟩ = .ok ()) :
    (processMails env state).1 = .ok true
    ∧ Effect.stateWrite head ∈ (processMails env state).2 := by
  have hpm : processMails env state
      = (.ok true,
         [Effect.lsTree, Effect.archiveHead,
          .archiveLog (effectiveLatest state ++ ".." ++ head)] ++
         (runLines env ⟨"", 0, lines.map lsTreeKey⟩ dls).2 ++
         [Effect.stateWrite head]) := by
    simp only [processMails, hls, hhead, hlog, hset]
    rw [if_neg hne]
  rw [hpm]
  exact ⟨rfl, by simp⟩

/-- One notes-tree `ls-tree` output line for a stored message id: the
53-character mode/type/object-name/tab prefix followed by the path. -/
def keyLine (mid : String) : String :=
  "100644 blob 0123456789012345678901234567890123456789\t" ++ hashKey mid

/-- A scan in which the only message reaches delivery and every
code-hosting call fails. -/
def env7 : Env :=
  { envBase with
    lsTree := .ok [keyLine "a@x"],
    revParse := .ok "h2",
    logLines := .ok ["@@ -0,0 +1,2 @@", "+From: someone", "+hello"],
    parseMIDRefs := fun _ => .ok ("m@x", ["a@x"]),
    notesGet := fun r =>
      if r = "a@x" then .ok (some ⟨"a@x", some "PR", none, none⟩)
      else .ok none,
    addPRComment := fun _ _ => .error "github down",
    addPRCommentReply := fun _ _ _ => .error "github down",
    addPRCommitComment := fun _ _ _ _ => .error "github down" }

/-- Witness for C7: the scan attempts exactly one delivery, the call
fails, no record is written for the message — and the scan still
returns `true` and persists the cursor at the new head. -/
theorem c7_witness :
    ((processMails env7 ⟨some "h1"⟩).1 = .ok true
     ∧ Effect.stateWrite "h2" ∈ (processMails env7 ⟨some "h1"⟩).2)
    ∧ ((processMails env7 ⟨some "h1"⟩).2).filter Effect.isHost
        = [Effect.hostComment "PR"]
    ∧ ((processMails env7 ⟨some "h1"⟩).2).filter Effect.isKvWrite = [] :=
  ⟨c7_cursor_advances env7 ⟨some "h1"⟩ [keyLine "a@x"]
     ["@@ -0,0 +1,2 @@", "+From: someone", "+hello"] "h2"
     rfl rfl (by decide) rfl rfl,
   by decide, by decide⟩

/-! ### Claim C8: which storage failures abort the scan -/

theorem lineHandler_no_stateWrite (env : Env) (st : ScanSt) (line : String)
    (r : String) : Effect.stateWrite r ∉ (lineHandler env st line).2 := by
  intro hmem
  by_cases h1 : strStartsWith line "@@ "
  · unfold lineHandler at hmem
    rw [if_pos h1] at hmem
    cases hph : parseHunkHeader line with
    | none => rw [hph] at hmem; simp at hmem
    | some n => rw [hph] at hmem; simp at hmem
  · by_cases h2 : st.counter ≠ 0
    · by_cases h3 : st.counter - 1 ≠ 0
      · simp [lineHandler, h1, h2, h3] at hmem
      · cases hp : env.parseMIDRefs (st.buffer ++ substrFrom line 1 ++ "\n") with
        | error err => simp [lineHandler, h1, h2, h3, hp] at hmem
        | ok pair =>
          cases pair with
          | mk mid refs =>
            simp [lineHandler, h1, h2, h3, hp] at hmem
            have := mboxHandler_effects env st.keys mid refs
              (st.buffer ++ substrFrom line 1 ++ "\n") _ hmem
            simp [Effect.fromMessage] at this
    · simp [lineHandler, h1, h2] at hmem

theorem runLines_no_stateWrite (env : Env) :
    ∀ (ls : List String) (st : ScanSt) (r : String),
      Effect.stateWrite r ∉ (runLines env st ls).2 := by
  intro ls
  induction ls with
  | nil => intro st r h; simp [runLines] at h
  | cons l ls ih =>
    intro st r h
    rw [runLines_cons] at h
    rcases List.mem_append.mp h with h1 | h1
    · exact lineHandler_no_stateWrite env st l r h1
    · exact ih _ r h1

/-- Claim C8 — amended.  A storage failure of the initial known-keys
listing aborts the scan before anything else happens, and a failure of
the final cursor write aborts the scan with the cursor not persisted;
but a KV read or write failure inside an individual message's handling
is caught by the per-message handler (which logs and skips), so the
scan continues and still persists the cursor. -/
theorem c8_amended (env : Env) (state : IGitMailingListMirrorState) :
    (∀ e, env.lsTree = .error e →
       processMails env state = (.error e, [Effect.lsTree]))
    ∧ (∀ e lines head dls,
        env.lsTree = .ok lines → env.revParse = .ok head →
        effectiveLatest state ≠ head → env.logLines = .ok dls →
        env.setState ⟨some head⟩ = .error e →
        (processMails env state).1 = .error e
        ∧ ∀ r, Effect.stateWrite r ∉ (processMails env state).2) := by
  constructor
  · intro e he
    unfold processMails
    rw [he]
  · intro e lines head dls hls hhead hne hlog hset
    have hpm : processMails env state
        = (.error e,
           [Effect.lsTree, Effect.archiveHead,
            .archiveLog (effectiveLatest state ++ ".." ++ head)] ++
           (runLines env ⟨"", 0, lines.map lsTreeKey⟩ dls).2) := by
      simp only [processMails, hls, hhead, hlog, hset]
      rw [if_neg hne]
    rw [hpm]
    refine ⟨rfl, ?_⟩
    intro r hmem
    simp at hmem
    exact runLines_no_stateWrite env dls ⟨"", 0, lines.map lsTreeKey⟩ r hmem

/-- A scan whose only message triggers a failing notes read while it is
being resolved. -/
def env8 : Env :=
  { envBase with
    lsTree := .ok [keyLine "a@x"],
    revParse := .ok "h2",
    logLines := .ok ["@@ -0,0 +1,2 @@", "+From: someone", "+hello"],
    parseMIDRefs := fun _ => .ok ("m@x", ["a@x"]),
    notesGet := fun r => if r = "a@x" then .error "boom" else .ok none }

/-- Counterexample to C8 as stated: a KV read fails during the scan
(the notes lookup of reference a@x), yet the scan does not abort — it
returns `true` and the cursor is persisted, because the per-message
try/catch swallows the storage failure. -/
theorem c8_counterexample :
    env8.notesGet "a@x" = .error "boom"
    ∧ Effect.kvRead "a@x" ∈ (processMails env8 ⟨some "h1"⟩).2
    ∧ (processMails env8 ⟨some "h1"⟩).1 = .ok true
    ∧ Effect.stateWrite "h2" ∈ (processMails env8 ⟨some "h1"⟩).2 :=
  ⟨rfl, by decide, rfl, by decide⟩

/-- An environment whose known-keys listing fails. -/
def env8b : Env := { envBase with lsTree := .error "boom" }

/-- Witness for the amended C8: a failing listing aborts the scan at
once. -/
theorem c8_amended_witness :
    processMails env8b ⟨some "h1"⟩ = (.error "boom", [Effect.lsTree]) :=
  (c8_amended env8b ⟨some "h1"⟩).1 "boom" rfl
